import Mathlib

/-!
Shallow embedding of the weather MCP server
(`src/mcp-server/04-weather-server/server-mcp-sse-weather.py`).

Python strings are modelled as lists of Unicode code points (`List Nat`);
the `str.strip` / `str.lower` / `str.upper` / `str.title` methods are
modelled on the ASCII range, which covers every string the server holds.
The wall clock and the pytz time-zone database are modelled as an explicit
environment (`Env`): `tzValid z` says whether `pytz.timezone z` succeeds,
`now z` is `datetime.now(tz)` for the zone named `z`.  A Python function
that may raise an uncaught exception is embedded as an `Option`-valued
function, `none` standing for the raised exception.
-/

namespace WeatherServer

/-- A Python string: its list of Unicode code points. -/
abbrev PyStr := List Nat

/-- Code points of a Lean string literal, used to transcribe the Python
string literals of the source file. -/
def pystr (s : String) : PyStr := s.data.map Char.toNat

/-- Python `str.isspace` for a single code point (ASCII whitespace,
the only whitespace relevant to the data of the server). -/
def pyIsSpace (c : Nat) : Bool := decide (c = 32 ∨ c = 9 ∨ c = 10 ∨ c = 13 ∨ c = 11 ∨ c = 12)

/-- ASCII letter test, the cased characters of the ASCII range. -/
def pyIsAlpha (c : Nat) : Bool := decide ((65 ≤ c ∧ c ≤ 90) ∨ (97 ≤ c ∧ c ≤ 122))

/-- Python `str.lower` on one code point (ASCII). -/
def pyLowerChar (c : Nat) : Nat := if 65 ≤ c ∧ c ≤ 90 then c + 32 else c

/-- Python `str.upper` on one code point (ASCII). -/
def pyUpperChar (c : Nat) : Nat := if 97 ≤ c ∧ c ≤ 122 then c - 32 else c

/-- Python `str.lower`. -/
def pyLower (s : PyStr) : PyStr := s.map pyLowerChar

/-- Python `str.upper`. -/
def pyUpper (s : PyStr) : PyStr := s.map pyUpperChar

/-- Python `str.strip()` with no argument: whitespace removed from both ends. -/
def pyStrip (s : PyStr) : PyStr := List.rdropWhile pyIsSpace (s.dropWhile pyIsSpace)

/-- Worker for Python `str.title`: the boolean records whether the previous
character was a cased (alphabetic) character; a letter after a non-letter is
uppercased, a letter after a letter is lowercased, other characters pass through. -/
def pyTitleGo : Bool → PyStr → PyStr
  | _, [] => []
  | prev, c :: cs =>
    (if pyIsAlpha c then (if prev then pyLowerChar c else pyUpperChar c) else c)
      :: pyTitleGo (pyIsAlpha c) cs

/-- Python `str.title`. -/
def pyTitle (s : PyStr) : PyStr := pyTitleGo false s

/-- The `LOCATIONS` dict: the six popular locations mapped to IANA time zones,
in the declaration order of the Python dict. -/
def LOCATIONS : List (PyStr × PyStr) :=
  [(pystr "Seattle", pystr "America/Los_Angeles"),
   (pystr "New York", pystr "America/New_York"),
   (pystr "London", pystr "Europe/London"),
   (pystr "Berlin", pystr "Europe/Berlin"),
   (pystr "Tokyo", pystr "Asia/Tokyo"),
   (pystr "Sydney", pystr "Australia/Sydney")]

/-- The `STATIC_WEATHER` dict: static weather descriptions per time-of-day bucket. -/
def STATIC_WEATHER : List (PyStr × PyStr) :=
  [(pystr "morning", pystr "Cool and clear with a light breeze."),
   (pystr "afternoon", pystr "Mild temperatures with scattered clouds and good visibility."),
   (pystr "evening", pystr "Calm conditions with a gentle breeze and fading light."),
   (pystr "night", pystr "Quiet, mostly clear skies and cooler air.")]

/-- The fields of a Python `datetime` that the server reads. -/
structure LocalDateTime where
  year : Nat
  month : Nat
  day : Nat
  hour : Nat
  minute : Nat
  second : Nat
deriving DecidableEq

/-- The external environment of the server: `tzValid z` holds when
`pytz.timezone z` succeeds, and `now z` is the current local time
`datetime.now(tz)` in the zone named `z`. -/
structure Env where
  tzValid : PyStr → Bool
  now : PyStr → LocalDateTime

/-- The function `_get_time_bucket`: classify the hour of a local datetime into a
time-of-day bucket. -/
def _get_time_bucket (local_dt : LocalDateTime) : PyStr :=
  let hour := local_dt.hour
  if 5 ≤ hour ∧ hour ≤ 11 then pystr "morning"
  else if 12 ≤ hour ∧ hour ≤ 17 then pystr "afternoon"
  else if 18 ≤ hour ∧ hour ≤ 21 then pystr "evening"
  else pystr "night"

/-- The function `_normalize_location`: strip and lowercase the input, return the first
dict key matching case-insensitively, else the title-cased fallback. -/
def _normalize_location (raw : PyStr) : PyStr :=
  let name := pyLower (pyStrip raw)
  match LOCATIONS.find? (fun kv => name == pyLower kv.1) with
  | some kv => kv.1
  | none => pyTitle name

/-- The tool `list_supported_locations`, which returns `list(LOCATIONS.keys())`. -/
def list_supported_locations : List PyStr := LOCATIONS.map Prod.fst

/-- The fixed unsupported-location guidance string of the source. -/
def UNSUPPORTED_MSG : PyStr :=
  pystr "Unsupported location. Use `list_supported_locations` to see valid options."

/-- The fixed time-zone-resolution-failure guidance string of the source
(code point 39 is the apostrophe). -/
def TZ_FAIL_MSG : PyStr :=
  pystr "Sorry, I couldn" ++ [39] ++ pystr "t resolve the time zone for that location."

/-- Decimal digits of a number, as code points. -/
def natDigits (n : Nat) : PyStr := (Nat.toDigits 10 n).map Char.toNat

/-- Zero-pad a digit string to width `w` (code point 48 is the zero digit). -/
def zfill (w : Nat) (ds : PyStr) : PyStr := List.replicate (w - ds.length) 48 ++ ds

/-- Python `strftime("%Y-%m-%d %H:%M")` on the modelled datetime. -/
def strftime_ymd_hm (dt : LocalDateTime) : PyStr :=
  zfill 4 (natDigits dt.year) ++ pystr "-" ++ zfill 2 (natDigits dt.month) ++ pystr "-"
    ++ zfill 2 (natDigits dt.day) ++ pystr " " ++ zfill 2 (natDigits dt.hour) ++ pystr ":"
    ++ zfill 2 (natDigits dt.minute)

/-- The tool `get_weather_at_location`.  Dict membership `norm not in LOCATIONS` and the
subscript `LOCATIONS[norm]` are both the association-list lookup;
`STATIC_WEATHER[bucket]` raising `KeyError` on a missing key is modelled by
`none`; the `try: pytz.timezone(...) except` is modelled by `Env.tzValid`. -/
def get_weather_at_location (env : Env) (location : PyStr) : Option PyStr :=
  let norm := _normalize_location location
  match LOCATIONS.find? (fun kv => norm == kv.1) with
  | none => some UNSUPPORTED_MSG
  | some kv =>
    if env.tzValid kv.2 then
      let now_local := env.now kv.2
      let bucket := _get_time_bucket now_local
      match STATIC_WEATHER.find? (fun bw => bucket == bw.1) with
      | none => none
      | some bw =>
        some (pystr "Weather for " ++ norm ++ pystr " at " ++ strftime_ymd_hm now_local
          ++ pystr " (" ++ bucket ++ pystr "): " ++ bw.2)
    else some TZ_FAIL_MSG

/-- The tool `get_weather_for_multiple_locations`: the loop appending
`get_weather_at_location(loc)` for each input in order; an exception in any
iteration aborts the whole batch (modelled by `Option.bind`). -/
def get_weather_for_multiple_locations (env : Env) : List PyStr → Option (List PyStr)
  | [] => some []
  | loc :: rest =>
    (get_weather_at_location env loc).bind fun r =>
      (get_weather_for_multiple_locations env rest).map fun rs => r :: rs

/-- A concrete environment for witnesses and counterexamples: every zone
resolves and the clock reads noon of 2025-01-01 everywhere. -/
def env0 : Env where
  tzValid := fun _ => true
  now := fun _ => ⟨2025, 1, 1, 12, 0, 0⟩

/-- A second concrete environment, equal to `env0` except for the seconds
field of the clock. -/
def env0s : Env where
  tzValid := fun _ => true
  now := fun _ => ⟨2025, 1, 1, 12, 0, 30⟩

/-- The description the `STATIC_WEATHER` table associates to a bucket name
(empty for a name outside the table); used to state what the formatted
weather line contains. -/
def weather_description (b : PyStr) : PyStr :=
  ((STATIC_WEATHER.find? (fun bw => b == bw.1)).map Prod.snd).getD []

theorem pyLowerChar_idem (c : Nat) : pyLowerChar (pyLowerChar c) = pyLowerChar c := by
  unfold pyLowerChar; split_ifs <;> omega

theorem pyLowerChar_pyUpperChar (c : Nat) : pyLowerChar (pyUpperChar c) = pyLowerChar c := by
  unfold pyLowerChar pyUpperChar; split_ifs <;> omega

theorem pyUpperChar_pyLowerChar (c : Nat) : pyUpperChar (pyLowerChar c) = pyUpperChar c := by
  unfold pyLowerChar pyUpperChar; split_ifs <;> omega

theorem pyIsAlpha_pyLowerChar (c : Nat) : pyIsAlpha (pyLowerChar c) = pyIsAlpha c := by
  unfold pyIsAlpha pyLowerChar; split_ifs <;> (rw [decide_eq_decide] <;> omega)

theorem pyIsSpace_pyLowerChar (c : Nat) : pyIsSpace (pyLowerChar c) = pyIsSpace c := by
  unfold pyIsSpace pyLowerChar; split_ifs <;> (rw [decide_eq_decide] <;> omega)

theorem pyIsSpace_pyUpperChar (c : Nat) : pyIsSpace (pyUpperChar c) = pyIsSpace c := by
  unfold pyIsSpace pyUpperChar; split_ifs <;> (rw [decide_eq_decide] <;> omega)

theorem pyLowerChar_of_not_alpha {c : Nat} (h : pyIsAlpha c = false) : pyLowerChar c = c := by
  unfold pyIsAlpha at h
  unfold pyLowerChar
  split_ifs with hc
  · exfalso; simp only [decide_eq_false_iff_not] at h; exact h (Or.inl hc)
  · rfl

theorem pyTitleGo_pyLower (b : Bool) (s : PyStr) : pyTitleGo b (pyLower s) = pyTitleGo b s := by
  induction s generalizing b with
  | nil => rfl
  | cons c cs ih =>
    simp only [pyLower, List.map_cons, pyTitleGo, pyIsAlpha_pyLowerChar]
    congr 1
    · rcases Bool.eq_false_or_eq_true (pyIsAlpha c) with ha | ha
      · cases b <;> simp [ha, pyLowerChar_idem, pyUpperChar_pyLowerChar]
      · simp [ha, pyLowerChar_of_not_alpha ha]
    · exact ih _

theorem pyLower_pyTitleGo (b : Bool) (s : PyStr) : pyLower (pyTitleGo b s) = pyLower s := by
  induction s generalizing b with
  | nil => rfl
  | cons c cs ih =>
    simp only [pyTitleGo, pyLower, List.map_cons]
    congr 1
    · rcases Bool.eq_false_or_eq_true (pyIsAlpha c) with ha | ha
      · cases b <;> simp [ha, pyLowerChar_idem, pyLowerChar_pyUpperChar]
      · simp [ha]
    · exact ih _

theorem pyLower_pyTitle (s : PyStr) : pyLower (pyTitle s) = pyLower s :=
  pyLower_pyTitleGo false s

theorem pyLower_idem (s : PyStr) : pyLower (pyLower s) = pyLower s := by
  induction s with
  | nil => rfl
  | cons c cs ih =>
    show pyLowerChar (pyLowerChar c) :: pyLower (pyLower cs) = pyLowerChar c :: pyLower cs
    rw [pyLowerChar_idem, ih]

theorem spaceMap_pyTitleGo (b : Bool) (s : PyStr) :
    (pyTitleGo b s).map pyIsSpace = s.map pyIsSpace := by
  induction s generalizing b with
  | nil => rfl
  | cons c cs ih =>
    simp only [pyTitleGo, List.map_cons]
    congr 1
    · rcases Bool.eq_false_or_eq_true (pyIsAlpha c) with ha | ha
      · cases b <;> simp [ha, pyIsSpace_pyLowerChar, pyIsSpace_pyUpperChar]
      · simp [ha]
    · exact ih _

theorem spaceMap_pyLower (s : PyStr) : (pyLower s).map pyIsSpace = s.map pyIsSpace := by
  induction s with
  | nil => rfl
  | cons c cs ih =>
    show pyIsSpace (pyLowerChar c) :: (pyLower cs).map pyIsSpace = pyIsSpace c :: cs.map pyIsSpace
    rw [pyIsSpace_pyLowerChar, ih]

theorem dropWhile_cons_self {p : Nat → Bool} {c : Nat} {l : PyStr}
    (h : List.dropWhile p (c :: l) = c :: l) : p c = false := by
  rcases Bool.eq_false_or_eq_true (p c) with hc | hc
  · exfalso
    simp only [List.dropWhile_cons, hc, if_true] at h
    have hle : (List.dropWhile p l).length ≤ l.length := (List.dropWhile_suffix p).length_le
    have hlen := congrArg List.length h
    simp only [List.length_cons] at hlen
    omega
  · exact hc

theorem dropWhile_space_transfer {x a : PyStr} (hm : x.map pyIsSpace = a.map pyIsSpace)
    (ha : a.dropWhile pyIsSpace = a) : x.dropWhile pyIsSpace = x := by
  cases x with
  | nil => rfl
  | cons c xs =>
    cases a with
    | nil => simp at hm
    | cons d as =>
      simp only [List.map_cons, List.cons.injEq] at hm
      have hd : pyIsSpace d = false := dropWhile_cons_self ha
      simp [List.dropWhile_cons, hm.1, hd]

theorem rdropWhile_space_transfer {x a : PyStr} (hm : x.map pyIsSpace = a.map pyIsSpace)
    (ha : List.rdropWhile pyIsSpace a = a) : List.rdropWhile pyIsSpace x = x := by
  unfold List.rdropWhile at ha ⊢
  have hm' : x.reverse.map pyIsSpace = a.reverse.map pyIsSpace := by
    rw [List.map_reverse, List.map_reverse, hm]
  have ha' : a.reverse.dropWhile pyIsSpace = a.reverse := by
    have h := congrArg List.reverse ha
    rwa [List.reverse_reverse] at h
  rw [dropWhile_space_transfer hm' ha', List.reverse_reverse]

theorem pyStrip_noLead (s : PyStr) : (pyStrip s).dropWhile pyIsSpace = pyStrip s := by
  unfold pyStrip
  obtain ⟨t, ht⟩ := List.rdropWhile_prefix pyIsSpace (s.dropWhile pyIsSpace)
  cases hx : List.rdropWhile pyIsSpace (s.dropWhile pyIsSpace) with
  | nil => rfl
  | cons c cs =>
    have hu : s.dropWhile pyIsSpace = c :: (cs ++ t) := by
      rw [← ht, hx, List.cons_append]
    have hself : List.dropWhile pyIsSpace (List.dropWhile pyIsSpace s) =
        List.dropWhile pyIsSpace s := List.dropWhile_idempotent pyIsSpace s
    rw [hu] at hself
    have hc : pyIsSpace c = false := dropWhile_cons_self hself
    simp [List.dropWhile_cons, hc]

theorem pyStrip_noTrail (s : PyStr) :
    List.rdropWhile pyIsSpace (pyStrip s) = pyStrip s := by
  unfold pyStrip
  exact List.rdropWhile_idempotent pyIsSpace (s.dropWhile pyIsSpace)

theorem pyStrip_of_transfers (x a : PyStr) (hm : x.map pyIsSpace = a.map pyIsSpace)
    (h1 : a.dropWhile pyIsSpace = a) (h2 : List.rdropWhile pyIsSpace a = a) :
    pyStrip x = x := by
  unfold pyStrip
  rw [dropWhile_space_transfer hm h1, rdropWhile_space_transfer hm h2]

theorem find?_lower_eq_none {s : PyStr}
    (h : ∀ kv ∈ LOCATIONS, pyLower (pyStrip s) ≠ pyLower kv.1) :
    LOCATIONS.find? (fun kv => pyLower (pyStrip s) == pyLower kv.1) = none :=
  List.find?_eq_none.mpr fun kv hkv => by simpa using h kv hkv

theorem normalize_match_eq (s : PyStr) :
    _normalize_location s =
      match LOCATIONS.find? (fun kv => pyLower (pyStrip s) == pyLower kv.1) with
      | some kv => kv.1
      | none => pyTitle (pyLower (pyStrip s)) := rfl

theorem normalize_fallback_eq {s : PyStr}
    (h : ∀ kv ∈ LOCATIONS, pyLower (pyStrip s) ≠ pyLower kv.1) :
    _normalize_location s = pyTitle (pyStrip s) := by
  rw [normalize_match_eq, find?_lower_eq_none h]
  exact pyTitleGo_pyLower false (pyStrip s)

theorem fallback_not_key {s : PyStr}
    (h : ∀ kv ∈ LOCATIONS, pyLower (pyStrip s) ≠ pyLower kv.1) :
    ∀ kv ∈ LOCATIONS, pyTitle (pyStrip s) ≠ kv.1 := by
  intro kv hkv heq
  apply h kv hkv
  have h2 : pyLower (pyTitle (pyStrip s)) = pyLower kv.1 := by rw [heq]
  rwa [pyLower_pyTitle] at h2

/-- Claim C4: an input matching no canonical key case-insensitively (after
trimming) normalizes to the title-cased trimmed input, which is never a key
of the Location Table. -/
theorem normalize_location_fallback (s : PyStr)
    (h : ∀ kv ∈ LOCATIONS, pyLower (pyStrip s) ≠ pyLower kv.1) :
    _normalize_location s = pyTitle (pyStrip s) ∧
    ∀ kv ∈ LOCATIONS, _normalize_location s ≠ kv.1 := by
  refine ⟨normalize_fallback_eq h, ?_⟩
  simp only [normalize_fallback_eq h]
  exact fallback_not_key h

/-- Witness for C4 at the unsupported input "  atlantis CITY ". -/
theorem normalize_location_fallback_witness :
    (∀ kv ∈ LOCATIONS, pyLower (pyStrip (pystr "  atlantis CITY ")) ≠ pyLower kv.1) ∧
    (_normalize_location (pystr "  atlantis CITY ") =
        pyTitle (pyStrip (pystr "  atlantis CITY ")) ∧
      ∀ kv ∈ LOCATIONS, _normalize_location (pystr "  atlantis CITY ") ≠ kv.1) :=
  ⟨by decide, normalize_location_fallback (pystr "  atlantis CITY ") (by decide)⟩

/-- Claim C10: `_normalize_location` depends only on the trimmed, lower-cased
input, and its result never carries leading or trailing whitespace. -/
theorem normalize_location_strip_invariant :
    (∀ s t : PyStr, pyLower (pyStrip s) = pyLower (pyStrip t) →
      _normalize_location s = _normalize_location t) ∧
    (∀ s : PyStr, pyStrip (_normalize_location s) = _normalize_location s) := by
  constructor
  · intro s t h
    rw [normalize_match_eq, normalize_match_eq, h]
  · intro s
    cases hf : LOCATIONS.find? (fun kv => pyLower (pyStrip s) == pyLower kv.1) with
    | none =>
      rw [normalize_match_eq, hf]
      exact pyStrip_of_transfers (pyTitle (pyLower (pyStrip s))) (pyStrip s)
        ((spaceMap_pyTitleGo false (pyLower (pyStrip s))).trans (spaceMap_pyLower (pyStrip s)))
        (pyStrip_noLead s) (pyStrip_noTrail s)
    | some kv =>
      rw [normalize_match_eq, hf]
      show pyStrip kv.1 = kv.1
      have hmem : kv ∈ LOCATIONS := List.mem_of_find?_eq_some hf
      fin_cases hmem <;> decide

/-- Witness for C10: two spellings of London with equal trimmed lower-casing
normalize identically. -/
theorem normalize_location_strip_invariant_witness :
    pyLower (pyStrip (pystr " LONDON ")) = pyLower (pyStrip (pystr "london")) ∧
    _normalize_location (pystr " LONDON ") = _normalize_location (pystr "london") :=
  ⟨by decide,
    normalize_location_strip_invariant.1 (pystr " LONDON ") (pystr "london") (by decide)⟩

/-- Claim C1: for every hour-of-day 0–23 the time-bucket classification assigns
exactly one bucket, with ranges morning=[5,11], afternoon=[12,17],
evening=[18,21], night=[22,23]∪[0,4]. -/
theorem time_bucket_partition (dt : LocalDateTime) (h : dt.hour ≤ 23) :
    ((5 ≤ dt.hour ∧ dt.hour ≤ 11) ↔ _get_time_bucket dt = pystr "morning") ∧
    ((12 ≤ dt.hour ∧ dt.hour ≤ 17) ↔ _get_time_bucket dt = pystr "afternoon") ∧
    ((18 ≤ dt.hour ∧ dt.hour ≤ 21) ↔ _get_time_bucket dt = pystr "evening") ∧
    ((dt.hour ≤ 4 ∨ 22 ≤ dt.hour) ↔ _get_time_bucket dt = pystr "night") ∧
    (_get_time_bucket dt = pystr "morning" ∨ _get_time_bucket dt = pystr "afternoon" ∨
      _get_time_bucket dt = pystr "evening" ∨ _get_time_bucket dt = pystr "night") := by
  have hb : _get_time_bucket dt = _get_time_bucket ⟨0, 0, 0, dt.hour, 0, 0⟩ := rfl
  rw [hb]
  generalize dt.hour = hh at h ⊢
  interval_cases hh <;> decide

/-- Witness for C1 at the boundary hour 4 (which the claim sends to night). -/
theorem time_bucket_partition_witness :
    (⟨2025, 1, 1, 4, 0, 0⟩ : LocalDateTime).hour ≤ 23 ∧
    (((5 ≤ (⟨2025, 1, 1, 4, 0, 0⟩ : LocalDateTime).hour ∧
        (⟨2025, 1, 1, 4, 0, 0⟩ : LocalDateTime).hour ≤ 11) ↔
        _get_time_bucket ⟨2025, 1, 1, 4, 0, 0⟩ = pystr "morning") ∧
      ((12 ≤ (⟨2025, 1, 1, 4, 0, 0⟩ : LocalDateTime).hour ∧
        (⟨2025, 1, 1, 4, 0, 0⟩ : LocalDateTime).hour ≤ 17) ↔
        _get_time_bucket ⟨2025, 1, 1, 4, 0, 0⟩ = pystr "afternoon") ∧
      ((18 ≤ (⟨2025, 1, 1, 4, 0, 0⟩ : LocalDateTime).hour ∧
        (⟨2025, 1, 1, 4, 0, 0⟩ : LocalDateTime).hour ≤ 21) ↔
        _get_time_bucket ⟨2025, 1, 1, 4, 0, 0⟩ = pystr "evening") ∧
      (((⟨2025, 1, 1, 4, 0, 0⟩ : LocalDateTime).hour ≤ 4 ∨
        22 ≤ (⟨2025, 1, 1, 4, 0, 0⟩ : LocalDateTime).hour) ↔
        _get_time_bucket ⟨2025, 1, 1, 4, 0, 0⟩ = pystr "night") ∧
      (_get_time_bucket ⟨2025, 1, 1, 4, 0, 0⟩ = pystr "morning" ∨
        _get_time_bucket ⟨2025, 1, 1, 4, 0, 0⟩ = pystr "afternoon" ∨
        _get_time_bucket ⟨2025, 1, 1, 4, 0, 0⟩ = pystr "evening" ∨
        _get_time_bucket ⟨2025, 1, 1, 4, 0, 0⟩ = pystr "night")) :=
  ⟨by decide, time_bucket_partition ⟨2025, 1, 1, 4, 0, 0⟩ (by decide)⟩

/-- Claim C3: each canonical key, lower-cased, upper-cased, or wrapped in
whitespace, normalizes back to exactly the canonical key. -/
theorem normalize_location_canonical (kv : PyStr × PyStr) (h : kv ∈ LOCATIONS) :
    _normalize_location (pyLower kv.1) = kv.1 ∧
    _normalize_location (pyUpper kv.1) = kv.1 ∧
    _normalize_location (pystr "  " ++ kv.1 ++ pystr "  ") = kv.1 := by
  fin_cases h <;> decide

/-- Witness for C3 at the canonical entry for Seattle. -/
theorem normalize_location_canonical_witness :
    (pystr "Seattle", pystr "America/Los_Angeles") ∈ LOCATIONS ∧
    (_normalize_location (pyLower (pystr "Seattle", pystr "America/Los_Angeles").1) =
        (pystr "Seattle", pystr "America/Los_Angeles").1 ∧
      _normalize_location (pyUpper (pystr "Seattle", pystr "America/Los_Angeles").1) =
        (pystr "Seattle", pystr "America/Los_Angeles").1 ∧
      _normalize_location (pystr "  " ++ (pystr "Seattle", pystr "America/Los_Angeles").1 ++ pystr "  ") =
        (pystr "Seattle", pystr "America/Los_Angeles").1) :=
  ⟨by decide, normalize_location_canonical (pystr "Seattle", pystr "America/Los_Angeles") (by decide)⟩

/-- Claim C7: `list_supported_locations` returns exactly the six canonical
names in declared order. -/
theorem list_supported_locations_spec :
    list_supported_locations =
      [pystr "Seattle", pystr "New York", pystr "London", pystr "Berlin",
       pystr "Tokyo", pystr "Sydney"] := rfl

theorem get_weather_match_eq (env : Env) (location : PyStr) :
    get_weather_at_location env location =
      match LOCATIONS.find? (fun kv => _normalize_location location == kv.1) with
      | none => some UNSUPPORTED_MSG
      | some kv =>
        if env.tzValid kv.2 then
          match STATIC_WEATHER.find? (fun bw => _get_time_bucket (env.now kv.2) == bw.1) with
          | none => none
          | some bw =>
            some (pystr "Weather for " ++ _normalize_location location ++ pystr " at "
              ++ strftime_ymd_hm (env.now kv.2) ++ pystr " (" ++ _get_time_bucket (env.now kv.2)
              ++ pystr "): " ++ bw.2)
        else some TZ_FAIL_MSG := rfl

theorem find?_key_self : ∀ kv ∈ LOCATIONS,
    LOCATIONS.find? (fun x => kv.1 == x.1) = some kv := by decide

theorem bucket_cases (dt : LocalDateTime) :
    _get_time_bucket dt = pystr "morning" ∨ _get_time_bucket dt = pystr "afternoon" ∨
    _get_time_bucket dt = pystr "evening" ∨ _get_time_bucket dt = pystr "night" := by
  simp only [_get_time_bucket]
  split_ifs <;> simp

theorem get_weather_key (env : Env) (location : PyStr) (kv : PyStr × PyStr)
    (hmem : kv ∈ LOCATIONS) (hn : _normalize_location location = kv.1)
    (htz : env.tzValid kv.2 = true) :
    get_weather_at_location env location =
      some (pystr "Weather for " ++ kv.1 ++ pystr " at " ++ strftime_ymd_hm (env.now kv.2)
        ++ pystr " (" ++ _get_time_bucket (env.now kv.2) ++ pystr "): "
        ++ weather_description (_get_time_bucket (env.now kv.2))) := by
  rw [get_weather_match_eq, hn, find?_key_self kv hmem]
  show (if env.tzValid kv.2 then _ else _) = _
  rw [if_pos htz]
  rcases bucket_cases (env.now kv.2) with hb | hb | hb | hb <;> rw [hb]
  · rw [show STATIC_WEATHER.find? (fun bw => pystr "morning" == bw.1) =
      some (pystr "morning", pystr "Cool and clear with a light breeze.") from by decide]
    rfl
  · rw [show STATIC_WEATHER.find? (fun bw => pystr "afternoon" == bw.1) =
      some (pystr "afternoon",
        pystr "Mild temperatures with scattered clouds and good visibility.") from by decide]
    rfl
  · rw [show STATIC_WEATHER.find? (fun bw => pystr "evening" == bw.1) =
      some (pystr "evening",
        pystr "Calm conditions with a gentle breeze and fading light.") from by decide]
    rfl
  · rw [show STATIC_WEATHER.find? (fun bw => pystr "night" == bw.1) =
      some (pystr "night", pystr "Quiet, mostly clear skies and cooler air.") from by decide]
    rfl

theorem get_weather_unsupported {location : PyStr} (env : Env)
    (h : ∀ kv ∈ LOCATIONS, _normalize_location location ≠ kv.1) :
    get_weather_at_location env location = some UNSUPPORTED_MSG := by
  rw [get_weather_match_eq,
    List.find?_eq_none.mpr (fun kv hkv => by simpa using h kv hkv)]

theorem get_weather_some_eq (env : Env) (location : PyStr) (kv : PyStr × PyStr)
    (hf : LOCATIONS.find? (fun x => _normalize_location location == x.1) = some kv) :
    get_weather_at_location env location =
      if env.tzValid kv.2 then
        match STATIC_WEATHER.find? (fun bw => _get_time_bucket (env.now kv.2) == bw.1) with
        | none => none
        | some bw =>
          some (pystr "Weather for " ++ _normalize_location location ++ pystr " at "
            ++ strftime_ymd_hm (env.now kv.2) ++ pystr " (" ++ _get_time_bucket (env.now kv.2)
            ++ pystr "): " ++ bw.2)
      else some TZ_FAIL_MSG := by
  rw [get_weather_match_eq, hf]

/-- Claim C2: any input normalizing to a canonical key yields, in an
environment whose time-zone table resolves every `LOCATIONS` value (the
Location Table invariant of the spec), the single formatted weather line —
canonical name, date plus 24-hour hour:minute, bucket name and that
the fixed description of that bucket — and never the unsupported-location or
time-zone-failure message. -/
theorem get_weather_supported (env : Env) (location : PyStr)
    (hn : _normalize_location location ∈ list_supported_locations)
    (htz : ∀ kv ∈ LOCATIONS, env.tzValid kv.2 = true) :
    ∃ kv ∈ LOCATIONS, _normalize_location location = kv.1 ∧
      get_weather_at_location env location =
        some (pystr "Weather for " ++ kv.1 ++ pystr " at " ++ strftime_ymd_hm (env.now kv.2)
          ++ pystr " (" ++ _get_time_bucket (env.now kv.2) ++ pystr "): "
          ++ weather_description (_get_time_bucket (env.now kv.2))) ∧
      get_weather_at_location env location ≠ some UNSUPPORTED_MSG ∧
      get_weather_at_location env location ≠ some TZ_FAIL_MSG := by
  obtain ⟨kv, hmem, hk⟩ : ∃ kv ∈ LOCATIONS, _normalize_location location = kv.1 := by
    simpa [list_supported_locations, eq_comm] using hn
  have hline := get_weather_key env location kv hmem hk (htz kv hmem)
  refine ⟨kv, hmem, hk, hline, ?_, ?_⟩
  · rw [hline]
    intro hcon
    have h1 : (some 87 : Option Nat) = some 85 :=
      congrArg List.head? (Option.some.inj hcon)
    exact absurd h1 (by decide)
  · rw [hline]
    intro hcon
    have h1 : (some 87 : Option Nat) = some 83 :=
      congrArg List.head? (Option.some.inj hcon)
    exact absurd h1 (by decide)

/-- Witness for C2: the input "  toKYO " in the environment `env0`. -/
theorem get_weather_supported_witness :
    ∃ kv ∈ LOCATIONS, _normalize_location (pystr "  toKYO ") = kv.1 ∧
      get_weather_at_location env0 (pystr "  toKYO ") =
        some (pystr "Weather for " ++ kv.1 ++ pystr " at " ++ strftime_ymd_hm (env0.now kv.2)
          ++ pystr " (" ++ _get_time_bucket (env0.now kv.2) ++ pystr "): "
          ++ weather_description (_get_time_bucket (env0.now kv.2))) ∧
      get_weather_at_location env0 (pystr "  toKYO ") ≠ some UNSUPPORTED_MSG ∧
      get_weather_at_location env0 (pystr "  toKYO ") ≠ some TZ_FAIL_MSG :=
  get_weather_supported env0 (pystr "  toKYO ") (by decide) (by decide)

/-- Counterexample to C5 as stated: the string "london" is not a member of
the canonical set of six location names, yet `get_weather_at_location` does
not return the unsupported-location text for it. -/
theorem unsupported_claim_counterexample :
    (∀ kv ∈ LOCATIONS, pystr "london" ≠ kv.1) ∧
    get_weather_at_location env0 (pystr "london") ≠ some UNSUPPORTED_MSG := by decide

/-- Claim C5 (amended): for any string that, after trimming, matches none of
the six canonical names case-insensitively, `get_weather_at_location`
returns exactly the fixed unsupported-location guidance text, as a returned
value rather than a raised exception. -/
theorem get_weather_unsupported_amended (env : Env) (s : PyStr)
    (h : ∀ kv ∈ LOCATIONS, pyLower (pyStrip s) ≠ pyLower kv.1) :
    get_weather_at_location env s = some UNSUPPORTED_MSG := by
  apply get_weather_unsupported
  simp only [normalize_fallback_eq h]
  exact fallback_not_key h

/-- Witness for the amended C5 at the input "Atlantis". -/
theorem get_weather_unsupported_amended_witness :
    (∀ kv ∈ LOCATIONS, pyLower (pyStrip (pystr "Atlantis")) ≠ pyLower kv.1) ∧
    get_weather_at_location env0 (pystr "Atlantis") = some UNSUPPORTED_MSG :=
  ⟨by decide, get_weather_unsupported_amended env0 (pystr "Atlantis") (by decide)⟩

theorem get_weather_isSome (env : Env) (location : PyStr) :
    (get_weather_at_location env location).isSome = true := by
  cases hf : LOCATIONS.find? (fun x => _normalize_location location == x.1) with
  | none =>
    rw [get_weather_match_eq, hf]
    rfl
  | some kv =>
    rw [get_weather_some_eq env location kv hf]
    rcases Bool.eq_false_or_eq_true (env.tzValid kv.2) with ht | ht
    · rw [if_pos ht]
      rcases bucket_cases (env.now kv.2) with hb | hb | hb | hb <;> rw [hb] <;> rfl
    · rw [if_neg (by simp [ht])]
      rfl

theorem batch_isSome (env : Env) (locations : List PyStr) :
    (get_weather_for_multiple_locations env locations).isSome = true := by
  induction locations with
  | nil => rfl
  | cons a as ih =>
    rcases Option.isSome_iff_exists.mp (get_weather_isSome env a) with ⟨r, hr⟩
    rcases Option.isSome_iff_exists.mp ih with ⟨rs, hrs⟩
    simp [get_weather_for_multiple_locations, hr, hrs]

/-- Claim C8: for every input string `get_weather_at_location` returns a
string (never a raised fault), and hence a batch call never aborts partway:
both domain failures come back in-band as guidance text. -/
theorem get_weather_never_raises (env : Env) :
    (∀ location : PyStr, (get_weather_at_location env location).isSome = true) ∧
    (∀ locations : List PyStr,
      (get_weather_for_multiple_locations env locations).isSome = true) :=
  ⟨get_weather_isSome env, batch_isSome env⟩

/-- Witness for C8 in the concrete environment `env0`. -/
theorem get_weather_never_raises_witness :
    (∀ location : PyStr, (get_weather_at_location env0 location).isSome = true) ∧
    (∀ locations : List PyStr,
      (get_weather_for_multiple_locations env0 locations).isSome = true) :=
  get_weather_never_raises env0

/-- Claim C6: the batch lookup returns one output per input, in input order
(element `i` of the output is `get_weather_at_location` of input `i`),
with no filtering, and the empty input yields the empty output. -/
theorem batch_pointwise (env : Env) (locations : List PyStr) :
    ∃ out : List PyStr, get_weather_for_multiple_locations env locations = some out ∧
      out.length = locations.length ∧
      (∀ i (hi : i < out.length) (hj : i < locations.length),
        some (out.get ⟨i, hi⟩) = get_weather_at_location env (locations.get ⟨i, hj⟩)) ∧
      (locations = [] → out = []) := by
  induction locations with
  | nil =>
    exact ⟨[], rfl, rfl, fun i hi _ => absurd hi (by simp), fun _ => rfl⟩
  | cons a as ih =>
    obtain ⟨out, hout, hlen, hpt, _⟩ := ih
    rcases Option.isSome_iff_exists.mp (get_weather_isSome env a) with ⟨r, hr⟩
    refine ⟨r :: out, ?_, by simp [hlen], ?_, by simp⟩
    · simp [get_weather_for_multiple_locations, hr, hout]
    · intro i hi hj
      cases i with
      | zero => simpa using hr.symm
      | succ n =>
        simpa using hpt n (by simpa using hi) (by simpa using hj)

/-- Witness for C6 at a concrete batch containing an unsupported slot. -/
theorem batch_pointwise_witness :
    ∃ out : List PyStr,
      get_weather_for_multiple_locations env0
        [pystr "London", pystr "Atlantis", pystr "Tokyo"] = some out ∧
      out.length = [pystr "London", pystr "Atlantis", pystr "Tokyo"].length ∧
      (∀ i (hi : i < out.length)
        (hj : i < [pystr "London", pystr "Atlantis", pystr "Tokyo"].length),
        some (out.get ⟨i, hi⟩) = get_weather_at_location env0
          ([pystr "London", pystr "Atlantis", pystr "Tokyo"].get ⟨i, hj⟩)) ∧
      ([pystr "London", pystr "Atlantis", pystr "Tokyo"] = ([] : List PyStr) → out = []) :=
  batch_pointwise env0 [pystr "London", pystr "Atlantis", pystr "Tokyo"]

/-- Claim C9: the weather lookup is deterministic given a fixed wall clock:
two environments with the same time-zone table that agree on the local date,
hour and minute of every zone (the seconds may differ) produce identical
output for every location. -/
theorem get_weather_deterministic (env1 env2 : Env) (location : PyStr)
    (htz : ∀ z : PyStr, env1.tzValid z = env2.tzValid z)
    (hclock : ∀ z : PyStr, (env1.now z).year = (env2.now z).year ∧
      (env1.now z).month = (env2.now z).month ∧ (env1.now z).day = (env2.now z).day ∧
      (env1.now z).hour = (env2.now z).hour ∧ (env1.now z).minute = (env2.now z).minute) :
    get_weather_at_location env1 location = get_weather_at_location env2 location := by
  cases hf : LOCATIONS.find? (fun x => _normalize_location location == x.1) with
  | none =>
    rw [get_weather_match_eq, get_weather_match_eq, hf]
  | some kv =>
    rw [get_weather_some_eq env1 location kv hf, get_weather_some_eq env2 location kv hf,
      htz kv.2]
    rcases Bool.eq_false_or_eq_true (env2.tzValid kv.2) with ht | ht
    · rw [if_pos ht, if_pos ht]
      have hbucket : _get_time_bucket (env1.now kv.2) = _get_time_bucket (env2.now kv.2) := by
        have hh := (hclock kv.2).2.2.2.1
        simp only [_get_time_bucket]
        rw [hh]
      have hfmt : strftime_ymd_hm (env1.now kv.2) = strftime_ymd_hm (env2.now kv.2) := by
        obtain ⟨h1, h2, h3, h4, h5⟩ := hclock kv.2
        unfold strftime_ymd_hm
        rw [h1, h2, h3, h4, h5]
      rw [hbucket, hfmt]
    · rw [if_neg (by simp [ht]), if_neg (by simp [ht])]

/-- Witness for C9: `env0` and `env0s` differ only in the seconds of the
clock, and the weather line for London is identical in both. -/
theorem get_weather_deterministic_witness :
    get_weather_at_location env0 (pystr "London") =
      get_weather_at_location env0s (pystr "London") :=
  get_weather_deterministic env0 env0s (pystr "London") (fun _ => rfl)
    (fun _ => ⟨rfl, rfl, rfl, rfl, rfl⟩)

end WeatherServer
